import Mathlib

/-!
Verification of the collection / blocker-classification core of
kubectl-consolidation (Go). The definitions below are a shallow embedding
of the Go sources:

  - internal/consolidation/collector.go  (Collect, collectParallel,
    collectNodeInfo, CollectPodBlockers, DetectPodBlocker,
    blockerPatterns, NormalizeEventMessage, DetectBlockers,
    isConsolidationEvent, extractPodFromMessage)
  - internal/consolidation/nodes.go      (FetchNodes)
  - internal/consolidation/pods.go       (FetchAllPods grouping,
    BuildPodNameSet, FindBlockingPods)
  - the utilization calculator           (CalculateUtilization,
    calculatePercentage)
  - internal/karpenter/labels.go, version.go (labels, GetPoolName,
    GetCapacityType)

Modelling conventions:
  - `resource.Quantity` is represented by its exact value in milli-units
    (a natural number): CPU requests are milli-cores, memory requests are
    bytes scaled by 1000.  `MilliValue` is exact arithmetic (the Go int64
    never overflows for realistic cluster quantities).
  - Go maps (`map[string]string`, `map[string]bool`) are association
    lists / membership lists; a nil map is `none` where the code
    distinguishes nil (pod annotation sets), and lookups default to ""
    exactly like Go map indexing.
  - The Kubernetes client is a record of the three list operations; a
    failing call is `none`.  `FetchAllPods`/`FetchAllNodeEvents` group by
    node; grouping a list by a key and then looking the key up is
    `List.filter` on that key, with unscheduled pods (empty node name)
    dropped as in the Go grouping loop.
  - The Go per-node fan-out writes `results[idx]` from independent
    workers; its functional content is `List.map` over the sorted node
    list (slot `i` holds the value computed from node `i`).
  - Go's `blockerSet` map is rendered as an insertion-ordered
    duplicate-free list, a deterministic representative of the set.
  - Go regexp semantics: `.` matches any character except a newline, so
    the pattern `pdb.*prevent` requires an occurrence of "pdb" followed
    by "prevent" with no newline in between.
-/

/-- `resource.Quantity`, represented by its exact milli-unit value. -/
structure Quantity where
  milli : Nat
deriving DecidableEq, Repr

def Quantity.MilliValue (q : Quantity) : Nat := q.milli

def Quantity.IsZero (q : Quantity) : Bool := q.milli == 0

def Quantity.add (q r : Quantity) : Quantity := ⟨q.milli + r.milli⟩

def Quantity.zeroQ : Quantity := ⟨0⟩

/-- `corev1.ResourceList` restricted to the two keys the code consults.
An absent key is `none` (the Go map has no entry). -/
structure ResourceList where
  cpu : Option Quantity
  memory : Option Quantity
deriving DecidableEq, Repr

/-- `ResourceList.Cpu()`: the entry for cpu, or a zero quantity. -/
def ResourceList.Cpu (rl : ResourceList) : Quantity := rl.cpu.getD Quantity.zeroQ

/-- `ResourceList.Memory()`: the entry for memory, or a zero quantity. -/
def ResourceList.Memory (rl : ResourceList) : Quantity := rl.memory.getD Quantity.zeroQ

inductive PodPhase where
  | Pending | Running | Succeeded | Failed | UnknownPhase
deriving DecidableEq, Repr

/-- A container: only its resource requests are consulted.  A nil
`Resources.Requests` map is `none`. -/
structure Container where
  requests : Option ResourceList
deriving DecidableEq, Repr

/-- `corev1.Pod`, restricted to the fields the core reads. -/
structure Pod where
  ns : String
  name : String
  nodeName : String
  annotations : Option (List (String × String))
  phase : PodPhase
  containers : List Container
  initContainers : List Container
  creationTimestamp : Nat
deriving DecidableEq, Repr

/-- `corev1.Node`, restricted to the fields the core reads. -/
structure Node where
  name : String
  creationTimestamp : Nat
  labels : Option (List (String × String))
  allocatable : Option ResourceList
deriving DecidableEq, Repr

/-- `corev1.Event`, restricted to the fields the core reads. -/
structure Event where
  reason : String
  message : String
  involvedName : String
deriving DecidableEq, Repr

/-- Go map lookup with ok-flag: the first entry for the key, if any. -/
def mapFind (m : List (String × String)) (k : String) : Option String :=
  (m.find? (fun kv => kv.1 == k)).map (fun kv => kv.2)

/-- Go map indexing: the entry for the key, defaulting to "". -/
def mapGet (m : List (String × String)) (k : String) : String :=
  (mapFind m k).getD ""

/-! Karpenter label and annotation keys (internal/karpenter/labels.go). -/

def LabelProvisionerName : String := "karpenter.sh/provisioner-name"

def LabelNodePool : String := "karpenter.sh/nodepool"

def LabelCapacityType : String := "karpenter.sh/capacity-type"

def AnnotationDoNotEvict : String := "karpenter.sh/do-not-evict"

def AnnotationDoNotDisrupt : String := "karpenter.sh/do-not-disrupt"

def AnnotationDoNotConsolidate : String := "karpenter.sh/do-not-consolidate"

abbrev APIVersion := String

def APIVersionV1Alpha5 : APIVersion := "v1alpha5"

def APIVersionV1Beta1 : APIVersion := "v1beta1"

def APIVersionUnknown : APIVersion := "unknown"

/-- `karpenter.GetPoolName` (version.go): nodepool label wins over
provisioner label; a nil node or nil label map yields unknown. -/
def GetPoolName : Option Node → String × APIVersion
  | none => ("", APIVersionUnknown)
  | some node =>
    match node.labels with
    | none => ("", APIVersionUnknown)
    | some ls =>
      match mapFind ls LabelNodePool with
      | some n => (n, APIVersionV1Beta1)
      | none =>
        match mapFind ls LabelProvisionerName with
        | some n => (n, APIVersionV1Alpha5)
        | none => ("", APIVersionUnknown)

/-- `karpenter.GetCapacityType` (version.go). -/
def GetCapacityType : Option Node → String
  | none => ""
  | some node =>
    match node.labels with
    | none => ""
    | some ls => mapGet ls LabelCapacityType

/-! ## Utilization calculator -/

/-- One step of the Go loop body over a container's requests: add the cpu
entry if present, add the memory entry if present, skip a nil map. -/
def containerStep (acc : Quantity × Quantity) (c : Container) : Quantity × Quantity :=
  match c.requests with
  | none => acc
  | some rl =>
    let cpuAcc := match rl.cpu with
      | some q => acc.1.add q
      | none => acc.1
    let memAcc := match rl.memory with
      | some q => acc.2.add q
      | none => acc.2
    (cpuAcc, memAcc)

/-- The Go loop over one container list. -/
def containerTotals (cs : List Container) (acc : Quantity × Quantity) : Quantity × Quantity :=
  cs.foldl containerStep acc

/-- The Go loop over the pod list in `CalculateUtilization`: terminal
pods are skipped, then containers and init-containers are accumulated. -/
def podRequestTotals (pods : List Pod) : Quantity × Quantity :=
  pods.foldl
    (fun acc pod =>
      if pod.phase = PodPhase.Succeeded ∨ pod.phase = PodPhase.Failed then acc
      else containerTotals pod.initContainers (containerTotals pod.containers acc))
    (Quantity.zeroQ, Quantity.zeroQ)

/-- `calculatePercentage` (Go): `int((used.MilliValue()*100) / total.MilliValue())`,
guarded twice against a zero denominator. -/
def calculatePercentage (used total : Quantity) : Nat :=
  if total.IsZero then 0
  else
    let usedValue := used.MilliValue
    let totalValue := total.MilliValue
    if totalValue == 0 then 0
    else (usedValue * 100) / totalValue

/-- `CalculateUtilization` (Go): percentages of summed requests of
non-terminal pods relative to the node's allocatable cpu and memory. -/
def CalculateUtilization (node : Node) (pods : List Pod) : Nat × Nat :=
  match node.allocatable with
  | none => (0, 0)
  | some allocatable =>
    let allocatableCPU := allocatable.Cpu
    let allocatableMem := allocatable.Memory
    if allocatableCPU.IsZero || allocatableMem.IsZero then (0, 0)
    else
      let totals := podRequestTotals pods
      (calculatePercentage totals.1 allocatableCPU,
       calculatePercentage totals.2 allocatableMem)

/-! Specification-level request sums, used to state claim C1. -/

/-- The declared cpu request of one container (0 when absent). -/
def containerCpu (c : Container) : Nat :=
  match c.requests with
  | none => 0
  | some rl => (rl.cpu.map Quantity.milli).getD 0

/-- The declared memory request of one container (0 when absent). -/
def containerMem (c : Container) : Nat :=
  match c.requests with
  | none => 0
  | some rl => (rl.memory.map Quantity.milli).getD 0

/-- A pod is in a terminal phase. -/
def isTerminal (p : Pod) : Bool :=
  p.phase == PodPhase.Succeeded || p.phase == PodPhase.Failed

/-- Total declared cpu request over all containers and init-containers of
every non-terminal pod. -/
def totalCpuRequested (pods : List Pod) : Nat :=
  ((pods.filter (fun p => !isTerminal p)).map
    (fun p => ((p.containers ++ p.initContainers).map containerCpu).sum)).sum

/-- Total declared memory request over all containers and init-containers
of every non-terminal pod. -/
def totalMemRequested (pods : List Pod) : Nat :=
  ((pods.filter (fun p => !isTerminal p)).map
    (fun p => ((p.containers ++ p.initContainers).map containerMem).sum)).sum

lemma containerTotals_spec (cs : List Container) (acc : Quantity × Quantity) :
    containerTotals cs acc =
      (⟨acc.1.milli + (cs.map containerCpu).sum⟩, ⟨acc.2.milli + (cs.map containerMem).sum⟩) := by
  induction cs generalizing acc with
  | nil => simp [containerTotals]
  | cons c cs ih =>
    simp only [containerTotals, List.foldl_cons, List.map_cons, List.sum_cons]
    rw [show List.foldl containerStep (containerStep acc c) cs
        = containerTotals cs (containerStep acc c) from rfl, ih]
    cases c with
    | mk reqs =>
      cases reqs with
      | none => simp [containerStep, containerCpu, containerMem]
      | some rl =>
        cases rl with
        | mk cpu mem =>
          cases cpu <;> cases mem <;>
            simp [containerStep, containerCpu, containerMem, Quantity.add] <;> omega

lemma podRequestTotals_spec (pods : List Pod) :
    podRequestTotals pods = (⟨totalCpuRequested pods⟩, ⟨totalMemRequested pods⟩) := by
  have main : ∀ (l : List Pod) (acc : Quantity × Quantity),
      l.foldl
        (fun acc pod =>
          if pod.phase = PodPhase.Succeeded ∨ pod.phase = PodPhase.Failed then acc
          else containerTotals pod.initContainers (containerTotals pod.containers acc)) acc
      = (⟨acc.1.milli + totalCpuRequested l⟩, ⟨acc.2.milli + totalMemRequested l⟩) := by
    intro l
    induction l with
    | nil => intro acc; simp [totalCpuRequested, totalMemRequested]
    | cons p l ih =>
      intro acc
      simp only [List.foldl_cons]
      by_cases hp : p.phase = PodPhase.Succeeded ∨ p.phase = PodPhase.Failed
      · have hterm : isTerminal p = true := by
          simp [isTerminal]
          rcases hp with h | h
          · exact Or.inl h
          · exact Or.inr h
        rw [if_pos hp, ih]
        simp [totalCpuRequested, totalMemRequested, hterm]
      · have hterm : isTerminal p = false := by
          simp [isTerminal]
          constructor
          · intro h; exact hp (Or.inl h)
          · intro h; exact hp (Or.inr h)
        rw [if_neg hp, ih, containerTotals_spec, containerTotals_spec]
        simp [totalCpuRequested, totalMemRequested, hterm, List.map_append, List.sum_append]
        constructor <;> omega
  have := main pods (Quantity.zeroQ, Quantity.zeroQ)
  simpa [podRequestTotals, Quantity.zeroQ] using this

/-- C1. `CalculateUtilization` returns (0, 0) when allocatable data is
absent or allocatable cpu or memory is exactly zero, and otherwise the
exact truncated percentages `totalRequested * 100 / allocatable` for cpu
and for memory, summing requests of all containers and init-containers
of every non-terminal pod, with no clamp at 100. -/
theorem calculateUtilization_spec (node : Node) (pods : List Pod) :
    CalculateUtilization node pods =
      match node.allocatable with
      | none => (0, 0)
      | some allocatable =>
        if allocatable.Cpu.milli = 0 ∨ allocatable.Memory.milli = 0 then (0, 0)
        else (totalCpuRequested pods * 100 / allocatable.Cpu.milli,
              totalMemRequested pods * 100 / allocatable.Memory.milli) := by
  cases halloc : node.allocatable with
  | none => simp [CalculateUtilization, halloc]
  | some allocatable =>
    simp only [CalculateUtilization, halloc]
    by_cases hz : allocatable.Cpu.milli = 0 ∨ allocatable.Memory.milli = 0
    · have : (allocatable.Cpu.IsZero || allocatable.Memory.IsZero) = true := by
        simp [Quantity.IsZero]
        omega
      rw [if_pos this, if_pos hz]
    · have hcpu : allocatable.Cpu.milli ≠ 0 := fun h => hz (Or.inl h)
      have hmem : allocatable.Memory.milli ≠ 0 := fun h => hz (Or.inr h)
      have : (allocatable.Cpu.IsZero || allocatable.Memory.IsZero) = false := by
        simp [Quantity.IsZero]
        omega
      rw [if_neg (by simp [this] : ¬(allocatable.Cpu.IsZero || allocatable.Memory.IsZero) = true), if_neg hz]
      rw [podRequestTotals_spec]
      simp [calculatePercentage, Quantity.IsZero, Quantity.MilliValue, hcpu, hmem]

/-! ## Blocker classifier (collector.go) -/

abbrev BlockerType := String

def BlockerHighUtilization : BlockerType := "high-utilization"

def BlockerDoNotEvict : BlockerType := "do-not-evict"

def BlockerDoNotDisrupt : BlockerType := "do-not-disrupt"

def BlockerDoNotConsolidate : BlockerType := "do-not-consolidate"

def BlockerPDBViolation : BlockerType := "pdb-violation"

def BlockerNonReplicated : BlockerType := "non-replicated"

def BlockerWouldIncreaseCost : BlockerType := "would-increase-cost"

def BlockerInUseSecurityGroup : BlockerType := "in-use-security-group"

def BlockerOnDemandProtection : BlockerType := "on-demand-protection"

def BlockerLocalStorage : BlockerType := "local-storage"

def HighUtilizationThreshold : Int := 80

/-- `DetectPodBlocker` (collector.go): nil pod or nil annotation map is
not-found; otherwise the three annotations are checked in fixed order
against the literal "true". -/
def DetectPodBlocker : Option Pod → BlockerType × Bool
  | none => ("", false)
  | some pod =>
    match pod.annotations with
    | none => ("", false)
    | some anns =>
      if mapGet anns AnnotationDoNotEvict == "true" then (BlockerDoNotEvict, true)
      else if mapGet anns AnnotationDoNotDisrupt == "true" then (BlockerDoNotDisrupt, true)
      else if mapGet anns AnnotationDoNotConsolidate == "true" then (BlockerDoNotConsolidate, true)
      else ("", false)

/-- The annotation priority order stated by the spec. -/
def blockerPriority : List (String × BlockerType) :=
  [(AnnotationDoNotEvict, BlockerDoNotEvict),
   (AnnotationDoNotDisrupt, BlockerDoNotDisrupt),
   (AnnotationDoNotConsolidate, BlockerDoNotConsolidate)]

/-- C2. `DetectPodBlocker` is not-found for a nil pod or nil annotation
map, and otherwise returns (with found=true) the blocker of the first
annotation in the fixed priority order do-not-evict, do-not-disrupt,
do-not-consolidate whose value is exactly "true"; not-found when none is
exactly "true". -/
theorem detectPodBlocker_spec (pod : Option Pod) :
    DetectPodBlocker pod =
      match pod with
      | none => ("", false)
      | some p =>
        match p.annotations with
        | none => ("", false)
        | some anns =>
          match blockerPriority.find? (fun kv => mapGet anns kv.1 == "true") with
          | some kv => (kv.2, true)
          | none => ("", false) := by
  cases pod with
  | none => rfl
  | some p =>
    cases hanns : p.annotations with
    | none => simp [DetectPodBlocker, hanns]
    | some anns =>
      simp only [DetectPodBlocker, hanns, blockerPriority, List.find?_cons]
      by_cases h1 : mapGet anns AnnotationDoNotEvict == "true"
      · simp [h1]
      · rw [Bool.not_eq_true] at h1
        by_cases h2 : mapGet anns AnnotationDoNotDisrupt == "true"
        · simp [h1, h2]
        · rw [Bool.not_eq_true] at h2
          by_cases h3 : mapGet anns AnnotationDoNotConsolidate == "true"
          · simp [h1, h2, h3]
          · rw [Bool.not_eq_true] at h3
            simp [h1, h2, h3]

/-! ## Event message patterns (collector.go: blockerPatterns,
NormalizeEventMessage) -/

/-- Substring search, the semantics of a regexp match of a pattern with
no metacharacters: some position of `s` starts with `pat`. -/
def containsSub (pat s : List Char) : Bool :=
  (List.range (s.length + 1)).any (fun i => pat.isPrefixOf (s.drop i))

lemma containsSub_iff (pat s : List Char) : containsSub pat s = true ↔ pat <:+: s := by
  unfold containsSub
  rw [List.any_eq_true]
  constructor
  · rintro ⟨i, _, hpref⟩
    rw [List.isPrefixOf_iff_prefix] at hpref
    exact List.infix_iff_prefix_suffix.mpr ⟨s.drop i, hpref, List.drop_suffix i s⟩
  · rintro ⟨a, b, hs⟩
    refine ⟨a.length, ?_, ?_⟩
    · rw [List.mem_range]
      have : a.length ≤ s.length := by
        rw [← hs]; simp
      omega
    · rw [List.isPrefixOf_iff_prefix, ← hs, List.append_assoc, List.drop_left]
      exact List.prefix_append pat b

/-- The semantics of the Go regexp `p1.*p2` on one string: an occurrence
of `p1`, then characters none of which is a newline (Go's `.` does not
match a newline), then an occurrence of `p2`. -/
def MatchesSeqNoNL (p1 p2 s : List Char) : Prop :=
  ∃ a b c, s = a ++ p1 ++ b ++ p2 ++ c ∧ Char.ofNat 10 ∉ b

/-- Executable matcher for the Go regexp `p1.*p2`: a start position for
`p1`, then a newline-free gap of some length `k`, then `p2`. -/
def seqNoNLMatch (p1 p2 s : List Char) : Bool :=
  (List.range (s.length + 1)).any (fun i =>
    p1.isPrefixOf (s.drop i) &&
    (List.range (s.length + 1)).any (fun k =>
      ((s.drop (i + p1.length)).take k).all (fun c => c != Char.ofNat 10) &&
      p2.isPrefixOf ((s.drop (i + p1.length)).drop k)))

lemma seqNoNLMatch_iff (p1 p2 s : List Char) :
    seqNoNLMatch p1 p2 s = true ↔ MatchesSeqNoNL p1 p2 s := by
  unfold seqNoNLMatch MatchesSeqNoNL
  rw [List.any_eq_true]
  constructor
  · rintro ⟨i, _, h⟩
    rw [Bool.and_eq_true, List.any_eq_true] at h
    obtain ⟨h1, k, _, h2⟩ := h
    rw [Bool.and_eq_true] at h2
    obtain ⟨hall, hpref2⟩ := h2
    rw [List.isPrefixOf_iff_prefix] at h1 hpref2
    obtain ⟨u, hu⟩ := h1
    obtain ⟨c, hc⟩ := hpref2
    have ht : List.drop (i + p1.length) s = u := by
      have h2 : List.drop p1.length (List.drop i s) = List.drop p1.length (p1 ++ u) := by
        rw [hu]
      rw [List.drop_drop, List.drop_left] at h2
      exact h2
    have hc' : p2 ++ c = List.drop k u := by rw [← ht]; exact hc
    refine ⟨s.take i, u.take k, c, ?_, ?_⟩
    · conv_lhs => rw [← List.take_append_drop i s]
      rw [← hu]
      conv_lhs => rw [← List.take_append_drop k u]
      rw [← hc']
      simp
    · intro hmem
      rw [ht] at hall
      have := List.all_eq_true.mp hall _ hmem
      simp at this
  · rintro ⟨a, b, c, hs, hb⟩
    refine ⟨a.length, ?_, ?_⟩
    · rw [List.mem_range]
      have : a.length ≤ s.length := by rw [hs]; simp
      omega
    · rw [Bool.and_eq_true, List.any_eq_true]
      have hdrop : s.drop (a.length + p1.length) = b ++ p2 ++ c := by
        have : s = (a ++ p1) ++ (b ++ p2 ++ c) := by rw [hs]; simp
        rw [this]
        have hlen : a.length + p1.length = (a ++ p1).length := by simp
        rw [hlen, List.drop_left]
      constructor
      · rw [List.isPrefixOf_iff_prefix, hs]
        rw [show a ++ p1 ++ b ++ p2 ++ c = a ++ (p1 ++ (b ++ p2 ++ c)) by simp]
        rw [List.drop_left]
        exact List.prefix_append p1 _
      · refine ⟨b.length, ?_, ?_⟩
        · rw [List.mem_range]
          have : b.length ≤ s.length := by rw [hs]; simp; omega
          omega
        · rw [Bool.and_eq_true]
          rw [hdrop]
          constructor
          · rw [List.append_assoc, List.take_left]
            rw [List.all_eq_true]
            intro x hx
            simp
            intro heq
            exact hb (heq ▸ hx)
          · rw [List.append_assoc, List.drop_left, List.isPrefixOf_iff_prefix]
            exact List.prefix_append p2 c

instance (p1 p2 s : List Char) : Decidable (MatchesSeqNoNL p1 p2 s) :=
  decidable_of_iff (seqNoNLMatch p1 p2 s = true) (seqNoNLMatch_iff p1 p2 s)

/-- One compiled pattern of the Go `blockerPatterns` table: either a
literal (a regexp with no metacharacters) or `p1.*p2`. -/
inductive Pattern where
  | literal (chars : List Char)
  | seq (p1 p2 : List Char)
deriving DecidableEq, Repr

/-- `regexp.MatchString` for the two pattern shapes the table uses. -/
def Pattern.MatchString : Pattern → List Char → Bool
  | .literal cs, s => containsSub cs s
  | .seq p1 p2, s => seqNoNLMatch p1 p2 s

/-- `strings.ToLower` restricted to ASCII (every pattern is ASCII). -/
def toLowerList (s : String) : List Char := s.toList.map Char.toLower

/-- `blockerPatterns` (collector.go), in source order. -/
def blockerPatterns : List (Pattern × BlockerType) :=
  [(Pattern.seq "pdb".toList "prevent".toList, BlockerPDBViolation),
   (Pattern.literal "local storage".toList, BlockerLocalStorage),
   (Pattern.literal "non-replicated".toList, BlockerNonReplicated),
   (Pattern.literal "would increase cost".toList, BlockerWouldIncreaseCost),
   (Pattern.literal "in-use security group".toList, BlockerInUseSecurityGroup),
   (Pattern.literal "on-demand".toList, BlockerOnDemandProtection),
   (Pattern.literal "do-not-consolidate".toList, BlockerDoNotConsolidate),
   (Pattern.literal "do-not-disrupt".toList, BlockerDoNotDisrupt),
   (Pattern.literal "do-not-evict".toList, BlockerDoNotEvict)]

/-- `NormalizeEventMessage` (collector.go): empty in, empty out;
otherwise the blocker of the first pattern matching the lower-cased
message, or empty. -/
def NormalizeEventMessage (message : String) : BlockerType :=
  if message == "" then ""
  else
    match blockerPatterns.find? (fun p => p.1.MatchString (toLowerList message)) with
    | some p => p.2
    | none => ""

lemma bool_false_of_not {b : Bool} {p : Prop} (h : b = true ↔ p) (hp : ¬ p) : b = false := by
  rcases Bool.eq_false_or_eq_true b with hb | hb
  · exact absurd (h.mp hb) hp
  · exact hb

/-- C3 counterexample. In the lower-cased message "pdb\nwould prevent
eviction", "pdb" is followed eventually by "prevent", yet
`NormalizeEventMessage` returns the empty result, not pdb-violation: the
Go regexp `pdb.*prevent` does not match across the newline. -/
theorem normalizeEventMessage_newline_cex :
    (∃ a b c, toLowerList "PDB\nwould prevent eviction" =
        a ++ "pdb".toList ++ b ++ "prevent".toList ++ c) ∧
    NormalizeEventMessage "PDB\nwould prevent eviction" ≠ BlockerPDBViolation ∧
    NormalizeEventMessage "PDB\nwould prevent eviction" = "" :=
  ⟨⟨[], "\nwould ".toList, " eviction".toList, by decide⟩, by decide, by decide⟩

/-- C3 (amended). `NormalizeEventMessage` returns the empty result for
the empty string; otherwise it lower-cases the message and returns the
BlockerType of the first of the nine fixed patterns that matches, the
first pattern being "pdb" followed eventually by "prevent" with no
newline between them, and the empty result when none matches. -/
theorem normalizeEventMessage_spec (message : String) :
    NormalizeEventMessage message =
      if message = "" then ""
      else if MatchesSeqNoNL "pdb".toList "prevent".toList (toLowerList message) then
        BlockerPDBViolation
      else if "local storage".toList <:+: toLowerList message then BlockerLocalStorage
      else if "non-replicated".toList <:+: toLowerList message then BlockerNonReplicated
      else if "would increase cost".toList <:+: toLowerList message then BlockerWouldIncreaseCost
      else if "in-use security group".toList <:+: toLowerList message then BlockerInUseSecurityGroup
      else if "on-demand".toList <:+: toLowerList message then BlockerOnDemandProtection
      else if "do-not-consolidate".toList <:+: toLowerList message then BlockerDoNotConsolidate
      else if "do-not-disrupt".toList <:+: toLowerList message then BlockerDoNotDisrupt
      else if "do-not-evict".toList <:+: toLowerList message then BlockerDoNotEvict
      else "" := by
  by_cases hempty : message = ""
  · simp [NormalizeEventMessage, hempty]
  · have hne : (message == "") = false := by simp [hempty]
    rw [if_neg hempty]
    simp only [NormalizeEventMessage, hne, Bool.false_eq_true, if_false]
    set lower := toLowerList message with hlower
    by_cases h1 : MatchesSeqNoNL "pdb".toList "prevent".toList lower
    · have b1 := (seqNoNLMatch_iff "pdb".toList "prevent".toList lower).mpr h1
      rw [if_pos h1]
      simp only [blockerPatterns, List.find?_cons, Pattern.MatchString, b1]
    · have b1 := bool_false_of_not (seqNoNLMatch_iff "pdb".toList "prevent".toList lower) h1
      by_cases h2 : "local storage".toList <:+: lower
      · have b2 := (containsSub_iff "local storage".toList lower).mpr h2
        rw [if_neg h1, if_pos h2]
        simp only [blockerPatterns, List.find?_cons, Pattern.MatchString, b1, b2]
      · have b2 := bool_false_of_not (containsSub_iff "local storage".toList lower) h2
        by_cases h3 : "non-replicated".toList <:+: lower
        · have b3 := (containsSub_iff "non-replicated".toList lower).mpr h3
          rw [if_neg h1, if_neg h2, if_pos h3]
          simp only [blockerPatterns, List.find?_cons, Pattern.MatchString, b1, b2, b3]
        · have b3 := bool_false_of_not (containsSub_iff "non-replicated".toList lower) h3
          by_cases h4 : "would increase cost".toList <:+: lower
          · have b4 := (containsSub_iff "would increase cost".toList lower).mpr h4
            rw [if_neg h1, if_neg h2, if_neg h3, if_pos h4]
            simp only [blockerPatterns, List.find?_cons, Pattern.MatchString, b1, b2, b3, b4]
          · have b4 := bool_false_of_not (containsSub_iff "would increase cost".toList lower) h4
            by_cases h5 : "in-use security group".toList <:+: lower
            · have b5 := (containsSub_iff "in-use security group".toList lower).mpr h5
              rw [if_neg h1, if_neg h2, if_neg h3, if_neg h4, if_pos h5]
              simp only [blockerPatterns, List.find?_cons, Pattern.MatchString, b1, b2, b3, b4, b5]
            · have b5 := bool_false_of_not (containsSub_iff "in-use security group".toList lower) h5
              by_cases h6 : "on-demand".toList <:+: lower
              · have b6 := (containsSub_iff "on-demand".toList lower).mpr h6
                rw [if_neg h1, if_neg h2, if_neg h3, if_neg h4, if_neg h5, if_pos h6]
                simp only [blockerPatterns, List.find?_cons, Pattern.MatchString, b1, b2, b3, b4, b5, b6]
              · have b6 := bool_false_of_not (containsSub_iff "on-demand".toList lower) h6
                by_cases h7 : "do-not-consolidate".toList <:+: lower
                · have b7 := (containsSub_iff "do-not-consolidate".toList lower).mpr h7
                  rw [if_neg h1, if_neg h2, if_neg h3, if_neg h4, if_neg h5, if_neg h6, if_pos h7]
                  simp only [blockerPatterns, List.find?_cons, Pattern.MatchString, b1, b2, b3, b4, b5, b6, b7]
                · have b7 := bool_false_of_not (containsSub_iff "do-not-consolidate".toList lower) h7
                  by_cases h8 : "do-not-disrupt".toList <:+: lower
                  · have b8 := (containsSub_iff "do-not-disrupt".toList lower).mpr h8
                    rw [if_neg h1, if_neg h2, if_neg h3, if_neg h4, if_neg h5, if_neg h6, if_neg h7, if_pos h8]
                    simp only [blockerPatterns, List.find?_cons, Pattern.MatchString, b1, b2, b3, b4, b5, b6, b7, b8]
                  · have b8 := bool_false_of_not (containsSub_iff "do-not-disrupt".toList lower) h8
                    by_cases h9 : "do-not-evict".toList <:+: lower
                    · have b9 := (containsSub_iff "do-not-evict".toList lower).mpr h9
                      rw [if_neg h1, if_neg h2, if_neg h3, if_neg h4, if_neg h5, if_neg h6, if_neg h7, if_neg h8, if_pos h9]
                      simp only [blockerPatterns, List.find?_cons, Pattern.MatchString, b1, b2, b3, b4, b5, b6, b7, b8, b9]
                    · have b9 := bool_false_of_not (containsSub_iff "do-not-evict".toList lower) h9
                      rw [if_neg h1, if_neg h2, if_neg h3, if_neg h4, if_neg h5, if_neg h6, if_neg h7, if_neg h8, if_neg h9]
                      simp only [blockerPatterns, List.find?_cons, List.find?_nil, Pattern.MatchString, b1, b2, b3, b4, b5, b6, b7, b8, b9]

/-! ## DetectBlockers (collector.go) -/

/-- `isConsolidationEvent` (collector.go): one of three reason codes, or
the lower-cased message contains "consolidat", "deprovision" or
"disrupt". -/
def isConsolidationEvent (event : Event) : Bool :=
  let message := toLowerList event.message
  event.reason == "CannotConsolidate" ||
  event.reason == "DeprovisioningBlocked" ||
  event.reason == "DisruptionBlocked" ||
  containsSub "consolidat".toList message ||
  containsSub "deprovision".toList message ||
  containsSub "disrupt".toList message

/-- A match of the regexp `Pod "([^\x7b34\x7d]+)"` starting at the head of
`s`: the literal characters of `Pod "`, then a nonempty run of non-quote
characters (the greedy group, which necessarily ends at the next quote),
then the closing quote. -/
def podMatchAt (s : List Char) : Option (List Char) :=
  if ("Pod \"".toList).isPrefixOf s then
    let rest := s.drop 5
    let podChars := rest.takeWhile (fun c => c != Char.ofNat 34)
    if 0 < podChars.length ∧ podChars.length < rest.length then some podChars else none
  else none

/-- The leftmost match of the pod-name regexp: try every start position
from the left, first full match wins (Go `FindStringSubmatch`). -/
def findPodSubmatch : List Char → Option (List Char)
  | [] => none
  | c :: rest =>
    match podMatchAt (c :: rest) with
    | some n => some n
    | none => findPodSubmatch rest

/-- `extractPodFromMessage` (collector.go): the first capture group of
the leftmost match, or "" when the regexp does not match. -/
def extractPodFromMessage (message : String) : String :=
  match findPodSubmatch message.toList with
  | some n => String.mk n
  | none => ""

/-- `BuildPodNameSet` (pods.go): the set of "namespace/name" keys of the
given pods, as a membership list. -/
def BuildPodNameSet (pods : List Pod) : List String :=
  pods.map (fun pod => pod.ns ++ "/" ++ pod.name)

/-- Insertion into the Go `blockerSet` map, rendered as an
insertion-ordered duplicate-free list. -/
def insertBlocker (s : List BlockerType) (b : BlockerType) : List BlockerType :=
  if s.contains b then s else s ++ [b]

/-- The pod-annotation scan step of `DetectBlockers`. -/
def podStep (s : List BlockerType) (pod : Pod) : List BlockerType :=
  if (DetectPodBlocker (some pod)).2 then
    insertBlocker s (DetectPodBlocker (some pod)).1
  else s

/-- The event scan step of `DetectBlockers`: skip events that are not
consolidation-related, skip events naming a pod absent from the node's
current pod set, then add the classified message when nonempty. -/
def eventStep (existingPodNames : List String) (s : List BlockerType) (event : Event) :
    List BlockerType :=
  if !isConsolidationEvent event then s
  else if extractPodFromMessage event.message != "" &&
      !existingPodNames.contains (extractPodFromMessage event.message) then s
  else if NormalizeEventMessage event.message != "" then
    insertBlocker s (NormalizeEventMessage event.message)
  else s

/-- `DetectBlockers` (collector.go): utilization check, pod-annotation
scan, event scan, into one deduplicated set of blockers. -/
def DetectBlockers (pods : List Pod) (events : List Event) (cpuUtil memUtil : Int)
    (existingPodNames : List String) : List BlockerType :=
  events.foldl (eventStep existingPodNames)
    (pods.foldl podStep
      (if cpuUtil ≥ HighUtilizationThreshold ∨ memUtil ≥ HighUtilizationThreshold then
        insertBlocker [] BlockerHighUtilization
      else []))

lemma mem_insertBlocker {a b : BlockerType} {s : List BlockerType} :
    a ∈ insertBlocker s b ↔ a ∈ s ∨ a = b := by
  unfold insertBlocker
  by_cases h : s.contains b = true
  · rw [if_pos h]
    constructor
    · exact Or.inl
    · rintro (hs | rfl)
      · exact hs
      · exact List.elem_iff.mp h
  · rw [if_neg h]
    simp [List.mem_append]

lemma nodup_insertBlocker {s : List BlockerType} (h : s.Nodup) (b : BlockerType) :
    (insertBlocker s b).Nodup := by
  unfold insertBlocker
  by_cases hc : s.contains b = true
  · rw [if_pos hc]; exact h
  · rw [if_neg hc]
    rw [← List.concat_eq_append]
    refine List.Nodup.concat ?_ h
    intro hmem
    exact hc (List.elem_iff.mpr hmem)

lemma foldl_nodup {α : Type} (f : List BlockerType → α → List BlockerType)
    (hf : ∀ s x, s.Nodup → (f s x).Nodup) :
    ∀ (l : List α) (s : List BlockerType), s.Nodup → (l.foldl f s).Nodup := by
  intro l
  induction l with
  | nil => intro s hs; exact hs
  | cons x l ih => intro s hs; exact ih _ (hf s x hs)

lemma normalizeEventMessage_cases (m : String) :
    NormalizeEventMessage m = "" ∨ ∃ q ∈ blockerPatterns, NormalizeEventMessage m = q.2 := by
  unfold NormalizeEventMessage
  split
  · exact Or.inl rfl
  · split
    · rename_i p hf
      exact Or.inr ⟨p, List.mem_of_find?_eq_some hf, rfl⟩
    · exact Or.inl rfl

lemma normalizeEventMessage_not_high (m : String) :
    NormalizeEventMessage m ≠ BlockerHighUtilization := by
  rcases normalizeEventMessage_cases m with h | ⟨q, hq, h⟩
  · rw [h]; decide
  · rw [h]
    have hall : ∀ r ∈ blockerPatterns, r.2 ≠ BlockerHighUtilization := by decide
    exact hall q hq

lemma detectPodBlocker_not_high (pod : Pod) :
    (DetectPodBlocker (some pod)).1 ≠ BlockerHighUtilization := by
  cases hanns : pod.annotations with
  | none =>
    simp only [DetectPodBlocker, hanns]
    decide
  | some anns =>
    simp only [DetectPodBlocker, hanns]
    split_ifs <;> decide

lemma mem_high_foldl_pods (pods : List Pod) :
    ∀ s, BlockerHighUtilization ∈ pods.foldl podStep s ↔ BlockerHighUtilization ∈ s := by
  induction pods with
  | nil => intro s; simp
  | cons p l ih =>
    intro s
    rw [List.foldl_cons, ih]
    unfold podStep
    by_cases h : (DetectPodBlocker (some p)).2 = true
    · rw [if_pos h, mem_insertBlocker]
      constructor
      · rintro (hs | heq)
        · exact hs
        · exact absurd heq.symm (detectPodBlocker_not_high p)
      · exact Or.inl
    · rw [if_neg h]

lemma mem_high_foldl_events (names : List String) (events : List Event) :
    ∀ s, BlockerHighUtilization ∈ events.foldl (eventStep names) s ↔
      BlockerHighUtilization ∈ s := by
  induction events with
  | nil => intro s; simp
  | cons e l ih =>
    intro s
    rw [List.foldl_cons, ih]
    unfold eventStep
    split_ifs
    · exact Iff.rfl
    · exact Iff.rfl
    · rw [mem_insertBlocker]
      constructor
      · rintro (hs | heq)
        · exact hs
        · exact absurd heq.symm (normalizeEventMessage_not_high e.message)
      · exact Or.inl
    · exact Iff.rfl

/-- C4. The result of `DetectBlockers` contains high-utilization exactly
when cpu or memory utilization reaches the fixed threshold 80; with no
pods and no events the result is exactly that singleton or empty. -/
theorem detectBlockers_high_iff (pods : List Pod) (events : List Event) (cpuUtil memUtil : Int)
    (existingPodNames : List String) :
    (BlockerHighUtilization ∈ DetectBlockers pods events cpuUtil memUtil existingPodNames ↔
      cpuUtil ≥ HighUtilizationThreshold ∨ memUtil ≥ HighUtilizationThreshold) ∧
    DetectBlockers [] [] cpuUtil memUtil existingPodNames =
      (if cpuUtil ≥ HighUtilizationThreshold ∨ memUtil ≥ HighUtilizationThreshold then
        [BlockerHighUtilization] else []) := by
  constructor
  · unfold DetectBlockers
    rw [mem_high_foldl_events, mem_high_foldl_pods]
    by_cases hc : cpuUtil ≥ HighUtilizationThreshold ∨ memUtil ≥ HighUtilizationThreshold
    · rw [if_pos hc]
      simp [insertBlocker, hc]
    · rw [if_neg hc]
      simp [hc]
  · by_cases hc : cpuUtil ≥ HighUtilizationThreshold ∨ memUtil ≥ HighUtilizationThreshold
    · simp [DetectBlockers, insertBlocker, hc]
    · simp [DetectBlockers, insertBlocker, hc]

lemma podStep_nodup : ∀ (s : List BlockerType) (pod : Pod), s.Nodup → (podStep s pod).Nodup := by
  intro s pod hs
  unfold podStep
  split_ifs
  · exact nodup_insertBlocker hs _
  · exact hs

lemma eventStep_nodup (names : List String) :
    ∀ (s : List BlockerType) (e : Event), s.Nodup → (eventStep names s e).Nodup := by
  intro s e hs
  unfold eventStep
  split_ifs
  · exact hs
  · exact hs
  · exact nodup_insertBlocker hs _
  · exact hs

/-- C6. The blocker list returned by `DetectBlockers` never contains a
BlockerType twice (set semantics), and two calls on identical inputs
return the same list. -/
theorem detectBlockers_nodup (pods : List Pod) (events : List Event) (cpuUtil memUtil : Int)
    (existingPodNames : List String) :
    (DetectBlockers pods events cpuUtil memUtil existingPodNames).Nodup ∧
    DetectBlockers pods events cpuUtil memUtil existingPodNames =
      DetectBlockers pods events cpuUtil memUtil existingPodNames := by
  refine ⟨?_, rfl⟩
  unfold DetectBlockers
  apply foldl_nodup _ (eventStep_nodup existingPodNames)
  apply foldl_nodup _ podStep_nodup
  split_ifs
  · exact nodup_insertBlocker List.nodup_nil _
  · exact List.nodup_nil

/-- C5. A consolidation-related event whose message names a pod (via the
quoted-pod regexp) that is not in the node's current pod-name set
contributes nothing to the blocker set. -/
theorem detectBlockers_stale_guard (pods : List Pod) (pre post : List Event) (e : Event)
    (cpuUtil memUtil : Int) (names : List String)
    (hcons : isConsolidationEvent e = true)
    (hex : extractPodFromMessage e.message ≠ "")
    (hmem : names.contains (extractPodFromMessage e.message) = false) :
    DetectBlockers pods (pre ++ e :: post) cpuUtil memUtil names =
      DetectBlockers pods (pre ++ post) cpuUtil memUtil names := by
  have hnotmem : extractPodFromMessage e.message ∉ names := by
    intro hin
    have h2 : names.contains (extractPodFromMessage e.message) = true := List.elem_iff.mpr hin
    rw [hmem] at h2
    exact absurd h2 (by decide)
  have hb : (extractPodFromMessage e.message != "" &&
      !names.contains (extractPodFromMessage e.message)) = true := by
    simp [bne, hex, hnotmem]
  have hstep : ∀ s, eventStep names s e = s := by
    intro s
    unfold eventStep
    rw [hcons]
    rw [if_neg (show ¬((!true) = true) by decide)]
    rw [if_pos hb]
  unfold DetectBlockers
  rw [List.foldl_append, List.foldl_append, List.foldl_cons, hstep]

/-- A concrete stale event: consolidation-related by reason, naming a
pod that is not on the node. -/
def staleEvent : Event :=
  ⟨"CannotConsolidate", "Cannot consolidate Node: Pod \"default/ghost\" would be disrupted", "n1"⟩

theorem detectBlockers_stale_guard_witness :
    DetectBlockers [] [staleEvent] 0 0 [] = DetectBlockers [] [] 0 0 [] :=
  detectBlockers_stale_guard [] [] [] staleEvent 0 0 [] (by decide) (by decide) (by decide)

/-! ## Collector (collector.go, nodes.go, pods.go) -/

/-- The Kubernetes client as seen by the core: the three list calls.
`listNodes` takes the label selector passed in ListOptions ("" lists all
nodes); a failing call is `none`. -/
structure Client where
  listNodes : String → Option (List Node)
  listPods : Option (List Pod)
  listEvents : Option (List Event)

/-- The node ordering used by `FetchNodes`: ascending creation
timestamp. -/
def nodeOrder (a b : Node) : Prop := a.creationTimestamp ≤ b.creationTimestamp

instance : DecidableRel nodeOrder := fun x y => Nat.decLe x.creationTimestamp y.creationTimestamp

instance : IsTotal Node nodeOrder :=
  ⟨fun x y => Nat.le_total x.creationTimestamp y.creationTimestamp⟩

instance : IsTrans Node nodeOrder := ⟨fun _ _ _ => Nat.le_trans⟩

/-- `FetchNodes` (nodes.go): list nodes with the selector, keep only the
requested names when any are given, then sort ascending by creation
timestamp.  Go's `sort.Slice` is an arbitrary tie-breaking sort; the
model uses an insertion sort, one such sort. -/
def FetchNodes (client : Client) (nodeNames : List String) (selector : String) :
    Option (List Node) :=
  match client.listNodes selector with
  | none => none
  | some items =>
    some (List.insertionSort nodeOrder
      (if 0 < nodeNames.length then
        items.filter (fun node => nodeNames.contains node.name)
      else items))

/-- `FetchAllPods` grouping (pods.go) followed by map lookup: the pods
assigned to the named node, in list order; unscheduled pods (empty node
name) are dropped by the grouping loop. -/
def podsOnNode (allPods : List Pod) (nodeName : String) : List Pod :=
  allPods.filter (fun p => p.nodeName == nodeName && p.nodeName != "")

/-- `FetchAllNodeEvents` grouping followed by map lookup: the events
whose involved object is the named node. -/
def eventsOnNode (allEvents : List Event) (nodeName : String) : List Event :=
  allEvents.filter (fun e => e.involvedName == nodeName)

/-- `NodeInfo` (collector.go). -/
structure NodeInfo where
  node : Node
  PoolName : String
  PoolVersion : APIVersion
  CapacityType : String
  CPUUtilization : Nat
  MemoryUtilization : Nat
  Blockers : List BlockerType
deriving DecidableEq, Repr

/-- `collectNodeInfo` (collector.go): pool labels, capacity type,
utilization, pod-name set, blockers. -/
def collectNodeInfo (node : Node) (pods : List Pod) (events : List Event) : NodeInfo :=
  { node := node
    PoolName := (GetPoolName (some node)).1
    PoolVersion := (GetPoolName (some node)).2
    CapacityType := GetCapacityType (some node)
    CPUUtilization := (CalculateUtilization node pods).1
    MemoryUtilization := (CalculateUtilization node pods).2
    Blockers := DetectBlockers pods events ((CalculateUtilization node pods).1 : Int)
      ((CalculateUtilization node pods).2 : Int) (BuildPodNameSet pods) }

/-- `Collect` (collector.go): fetch nodes; zero matches is success with
an empty result; a pod fetch failure is fatal; an event fetch failure
degrades to an empty event set; then the bounded per-node fan-out, whose
functional content is one result slot per sorted node. -/
def Collect (client : Client) (nodeNames : List String) (selector : String) :
    Option (List NodeInfo) :=
  match FetchNodes client nodeNames selector with
  | none => none
  | some nodes =>
    if nodes.length = 0 then some []
    else
      match client.listPods with
      | none => none
      | some allPods =>
        some (nodes.map (fun node =>
          collectNodeInfo node (podsOnNode allPods node.name)
            (eventsOnNode (client.listEvents.getD []) node.name)))

/-- `PodBlocker` (collector.go).  The Go `Age` field is a rendering of
the pod's creation timestamp against the wall clock at print time; the
model carries the timestamp itself. -/
structure PodBlocker where
  NodeName : String
  ns : String
  PodName : String
  creationTimestamp : Nat
  Reason : BlockerType
deriving DecidableEq, Repr

/-- `FindBlockingPods` (pods.go): one PodBlocker per pod whose
annotation check succeeds, in pod order; other pods are omitted. -/
def FindBlockingPods (pods : List Pod) (nodeName : String) : List PodBlocker :=
  pods.filterMap (fun pod =>
    if (DetectPodBlocker (some pod)).2 then
      some { NodeName := nodeName, ns := pod.ns, PodName := pod.name,
             creationTimestamp := pod.creationTimestamp,
             Reason := (DetectPodBlocker (some pod)).1 }
    else none)

/-- `CollectPodBlockers` (collector.go): deduplicate the requested node
names into a set, fetch all pods once, then append `FindBlockingPods`
for each requested node (Go iterates the set in unspecified order; the
model iterates the deduplicated list). -/
def CollectPodBlockers (client : Client) (nodeNames : List String) :
    Option (List PodBlocker) :=
  match client.listPods with
  | none => none
  | some allPods =>
    some ((nodeNames.dedup).flatMap (fun nodeName =>
      FindBlockingPods (podsOnNode allPods nodeName) nodeName))

/-- C7. When the node fetch succeeds, the node list `Collect` works from
is a permutation of the fetched list filtered by exact-name membership
when names are given (otherwise the selector-fetched list itself), it is
sorted ascending by creation timestamp, and the returned NodeInfo list
has slot i holding exactly the NodeInfo computed from sorted node i. -/
theorem collect_sorted_order (client : Client) (nodeNames : List String) (selector : String)
    (nodes : List Node) (h : FetchNodes client nodeNames selector = some nodes) :
    (∀ fetched, client.listNodes selector = some fetched →
      nodes.Perm (if 0 < nodeNames.length then
        fetched.filter (fun node => nodeNames.contains node.name) else fetched)) ∧
    nodes.Pairwise (fun a b => a.creationTimestamp ≤ b.creationTimestamp) ∧
    (∀ allPods, client.listPods = some allPods →
      Collect client nodeNames selector = some (nodes.map (fun node =>
        collectNodeInfo node (podsOnNode allPods node.name)
          (eventsOnNode (client.listEvents.getD []) node.name)))) := by
  unfold FetchNodes at h
  cases hn : client.listNodes selector with
  | none =>
    rw [hn] at h
    simp at h
  | some items =>
    rw [hn] at h
    have hnodes : nodes = List.insertionSort nodeOrder
        (if 0 < nodeNames.length then
          items.filter (fun node => nodeNames.contains node.name)
        else items) := by
      injection h with h2
      exact h2.symm
    refine ⟨?_, ?_, ?_⟩
    · intro fetched hf
      injection hf with hf
      subst hf
      rw [hnodes]
      exact List.perm_insertionSort nodeOrder _
    · rw [hnodes]
      exact List.sorted_insertionSort nodeOrder _
    · intro allPods hAll
      have hfetch : FetchNodes client nodeNames selector = some nodes := by
        unfold FetchNodes
        rw [hn]
        exact h
      simp only [Collect, hfetch]
      by_cases hlen : nodes.length = 0
      · have hnil : nodes = [] := List.length_eq_zero.mp hlen
        subst hnil
        simp
      · rw [if_neg hlen]
        simp only [hAll]

/-- Concrete nodes and clients for the witnesses. -/
def cNodeOld : Node := ⟨"old", 1, none, none⟩

def cNodeNew : Node := ⟨"new", 5, none, none⟩

def cClient : Client := ⟨fun _ => some [cNodeNew, cNodeOld], some [], some []⟩

theorem collect_sorted_order_witness :
    List.Pairwise (fun a b => a.creationTimestamp ≤ b.creationTimestamp)
      [cNodeOld, cNodeNew] :=
  (collect_sorted_order cClient [] "" [cNodeOld, cNodeNew] (by decide)).2.1

/-- C8. `Collect` fails exactly when the node fetch fails or when it got
a nonempty node list and the pod fetch fails; zero matching nodes is an
empty success; a failing event fetch yields the same result as an empty
event list (blockers then come only from annotations and utilization). -/
theorem collect_error_semantics (client : Client) (nodeNames : List String) (selector : String) :
    (Collect client nodeNames selector = none ↔
      client.listNodes selector = none ∨
      (∃ nodes, FetchNodes client nodeNames selector = some nodes ∧ nodes ≠ [] ∧
        client.listPods = none)) ∧
    (FetchNodes client nodeNames selector = some [] →
      Collect client nodeNames selector = some []) ∧
    (client.listEvents = none →
      Collect client nodeNames selector =
        Collect { client with listEvents := some [] } nodeNames selector) := by
  refine ⟨?_, ?_, ?_⟩
  · cases hn : client.listNodes selector with
    | none =>
      have hfetch : FetchNodes client nodeNames selector = none := by
        unfold FetchNodes
        rw [hn]
      constructor
      · intro _
        exact Or.inl rfl
      · intro _
        simp only [Collect, hfetch]
    | some items =>
      have hfetch : FetchNodes client nodeNames selector = some (List.insertionSort nodeOrder
          (if 0 < nodeNames.length then
            items.filter (fun node => nodeNames.contains node.name)
          else items)) := by
        unfold FetchNodes
        rw [hn]
      set sorted := List.insertionSort nodeOrder
          (if 0 < nodeNames.length then
            items.filter (fun node => nodeNames.contains node.name)
          else items) with hsorted
      by_cases hlen : sorted.length = 0
      · have hnil : sorted = [] := List.length_eq_zero.mp hlen
        have hok : Collect client nodeNames selector = some [] := by
          simp only [Collect, hfetch]
          rw [if_pos hlen]
        constructor
        · intro hcontra
          rw [hok] at hcontra
          exact absurd hcontra (by simp)
        · rintro (hcontra | ⟨nodes, hnodes, hne, _⟩)
          · exact absurd hcontra (by simp)
          · rw [hfetch] at hnodes
            injection hnodes with hnodes
            exact absurd (hnodes ▸ hnil) hne
      · cases hp : client.listPods with
        | none =>
          have hcol : Collect client nodeNames selector = none := by
            simp only [Collect, hfetch]
            rw [if_neg hlen]
            simp only [hp]
          rw [hcol]
          constructor
          · intro _
            refine Or.inr ⟨sorted, hfetch, ?_, rfl⟩
            intro hnil
            exact hlen (by rw [hnil]; rfl)
          · intro _
            rfl
        | some allPods =>
          have hcol : Collect client nodeNames selector = some (sorted.map (fun node =>
              collectNodeInfo node (podsOnNode allPods node.name)
                (eventsOnNode (client.listEvents.getD []) node.name))) := by
            simp only [Collect, hfetch]
            rw [if_neg hlen]
            simp only [hp]
          rw [hcol]
          constructor
          · intro hcontra
            exact absurd hcontra (by simp)
          · rintro (hcontra | ⟨nodes, hnodes, _, hpods⟩)
            · exact absurd hcontra (by simp)
            · exact absurd hpods (by simp)
  · intro hempty
    simp only [Collect, hempty]
    rfl
  · intro hev
    have hfetch2 : FetchNodes { client with listEvents := some [] } nodeNames selector =
        FetchNodes client nodeNames selector := rfl
    have hLP : ({ client with listEvents := some [] } : Client).listPods =
        client.listPods := rfl
    have hLE : ({ client with listEvents := some [] } : Client).listEvents = some [] := rfl
    simp only [Collect, hfetch2, hLP, hLE, hev, Option.getD_none, Option.getD_some]

/-- C9. `CollectPodBlockers` deduplicates the requested node names, so
duplicates in the input change nothing; `FindBlockingPods` emits exactly
one PodBlocker per pod whose annotation check succeeds (its reason being
that check's blocker) and omits every other pod. -/
theorem collectPodBlockers_spec (client : Client) (nodeNames : List String)
    (pods : List Pod) (nodeName : String) :
    CollectPodBlockers client nodeNames = CollectPodBlockers client nodeNames.dedup ∧
    FindBlockingPods pods nodeName =
      (pods.filter (fun pod => (DetectPodBlocker (some pod)).2)).map (fun pod =>
        { NodeName := nodeName, ns := pod.ns, PodName := pod.name,
          creationTimestamp := pod.creationTimestamp,
          Reason := (DetectPodBlocker (some pod)).1 }) := by
  constructor
  · unfold CollectPodBlockers
    rw [List.dedup_idem]
  · induction pods with
    | nil => rfl
    | cons p l ih =>
      by_cases hp : (DetectPodBlocker (some p)).2 = true
      · simp only [FindBlockingPods, List.filterMap_cons, List.filter_cons, hp, if_pos,
          List.map_cons]
        rw [← FindBlockingPods, ih]
      · simp only [FindBlockingPods, List.filterMap_cons, List.filter_cons, hp, if_neg,
          Bool.false_eq_true, if_false]
        rw [← FindBlockingPods, ih]

/-- C10. With a nonempty requested-name filter, `FetchNodes` succeeds
whenever the list call succeeds and returns exactly the fetched nodes
whose names are requested: an unknown requested name causes no error and
contributes no entry. -/
theorem fetchNodes_unknown_names (client : Client) (nodeNames : List String) (selector : String)
    (fetched : List Node) (h0 : 0 < nodeNames.length)
    (h1 : client.listNodes selector = some fetched) :
    ∃ nodes, FetchNodes client nodeNames selector = some nodes ∧
      ∀ node, node ∈ nodes ↔ node ∈ fetched ∧ nodeNames.contains node.name = true := by
  refine ⟨List.insertionSort nodeOrder
      (fetched.filter (fun node => nodeNames.contains node.name)), ?_, ?_⟩
  · simp only [FetchNodes, h1]
    rw [if_pos h0]
  · intro node
    rw [(List.perm_insertionSort nodeOrder _).mem_iff, List.mem_filter]

def cClientOld : Client := ⟨fun _ => some [cNodeOld], some [], some []⟩

theorem fetchNodes_unknown_names_witness :
    ∃ nodes, FetchNodes cClientOld ["ghost", "old"] "" = some nodes ∧
      ∀ node, node ∈ nodes ↔ node ∈ [cNodeOld] ∧
        (["ghost", "old"] : List String).contains node.name = true :=
  fetchNodes_unknown_names cClientOld ["ghost", "old"] "" [cNodeOld] (by decide) rfl
